import Mathlib

/-!
Verification of the rule-driven command orchestration engine of
`yaml-runner-go` (packages `app`, `system`, `cmd`), as a shallow embedding.

Process spawning is external to the program, so every function that executes
a shell command is parametrised by an oracle `exec : Command → ProcOutcome`
giving the raw outcome the operating system produces for that invocation.
The translation of each Go function cites its source file.
-/

set_option autoImplicit false

namespace YamlRunner

/-- Raw outcome of one attempt by the operating system to run a process:
whether the process could be started, the exit code reported by
`os.ProcessState.ExitCode()` once it finished (`-1` when it was killed,
e.g. on the context timeout), and the raw standard streams. -/
structure ProcOutcome where
  started : Bool
  exitCode : Int
  rawStdout : String
  rawStderr : String
  deriving DecidableEq, Repr

/-- Error value returned by Go's `exec.Cmd.Run` (`system/command.go`,
`Command.Execute`).  Per the `os/exec` contract, `Run` returns a non-nil
error not only when the process could not be started (`startError`,
e.g. `*fs.PathError`) but also whenever the process exited with a
non-zero code or was killed: an `*exec.ExitError` (`exitError`).
The repository's own tests rely on this: `TestGatherFacts` expects
`error="exit status 1"` for a fact command that runs `exit 1`. -/
inductive GoError where
  | startError (msg : String)
  | exitError (code : Int)
  deriving DecidableEq, Repr

/-- `err := cmd.Run()` in `Command.Execute`: `none` exactly when the process
started and exited with code 0. -/
def goRunError (o : ProcOutcome) : Option GoError :=
  if o.started = false then some (GoError.startError "start failed")
  else if o.exitCode ≠ 0 then some (GoError.exitError o.exitCode)
  else none

/-- `cmd.ProcessState.ExitCode()`: `-1` when the process never started
(`ProcessState` is nil), otherwise the reported exit code. -/
def processStateExitCode (o : ProcOutcome) : Int :=
  if o.started = false then -1 else o.exitCode

/-- The injected environment: Go `map[string]string`, modelled as an
association list with unique keys (inserts replace). -/
abbrev EnvMap : Type := List (String × String)

/-- `system.Command` (`system/command.go`): a system command to be executed,
with its captured results. -/
structure SysCommand where
  Command : String
  Environment : EnvMap
  Directory : String
  Timeout : Int
  Shell : String
  Stdout : String
  Stderr : String
  Rc : Int
  Error : Option GoError
  deriving DecidableEq, Repr

/-- `strings.Trim(s, "\n")`: remove leading and trailing newline characters
(`Command.Execute` applies it to both captured streams). -/
def trimNewlines (s : String) : String :=
  let isNL : Char → Bool := fun c => c.toNat = 10
  ⟨((s.data.dropWhile isNL).reverse.dropWhile isNL).reverse⟩

/-- `system.NewCommand` (`system/command.go`), on the path where `os.Getwd`
succeeded and returned `pwd`: default timeout 5, default shell `/bin/sh`. -/
def newCommand (pwd : String) (command : String) : SysCommand :=
  { Command := command
    Environment := []
    Directory := pwd
    Timeout := 5
    Shell := "/bin/sh"
    Stdout := ""
    Stderr := ""
    Rc := 0
    Error := none }

/-- `Command.Execute` (`system/command.go`), given the raw outcome `o` the
operating system produced: trims the streams, records
`ProcessState.ExitCode()` and the error returned by `cmd.Run()`. -/
def SysCommand.executeWith (c : SysCommand) (o : ProcOutcome) : SysCommand :=
  { c with
    Stdout := trimNewlines o.rawStdout
    Stderr := trimNewlines o.rawStderr
    Rc := processStateExitCode o
    Error := goRunError o }

/-- Execution oracle: the outcome the operating system produces for a given
invocation (fully determined here by the configured command record). -/
abbrev ExecOracle : Type := SysCommand → ProcOutcome

/-- `app.Fact` (`app/facts.go`): a named observation. -/
structure Fact where
  Name : String
  Command : String
  Shell : String
  Result : SysCommand
  deriving DecidableEq, Repr

/-- The Go zero value of `system.Command` (a fact's `Result` before the
fact is gathered). -/
def zeroCommand : SysCommand :=
  { Command := "", Environment := [], Directory := "", Timeout := 0,
    Shell := "", Stdout := "", Stderr := "", Rc := 0, Error := none }

/-- `app.Facts = map[string]Fact` (`app/facts.go`), modelled as an
association list with unique keys. -/
abbrev FactsMap : Type := List (String × Fact)

/-- Go map read `m[k]` (first entry with the key; keys are unique). -/
def mapGet {α : Type} : List (String × α) → String → Option α
  | [], _ => none
  | p :: rest, k => if p.1 = k then some p.2 else mapGet rest k

/-- Go map assignment `m[k] = v`: replaces any existing entry for `k`. -/
def mapInsert {α : Type} (m : List (String × α)) (k : String) (v : α) :
    List (String × α) :=
  m.filter (fun p => p.1 ≠ k) ++ [(k, v)]

/-- Uniqueness of keys, the invariant of the association lists that model
Go maps. -/
def NoDupKeys {α : Type} (m : List (String × α)) : Prop :=
  m.Pairwise (fun p q => p.1 ≠ q.1)

/-- One iteration of the loop body of `gatherFacts` (`app/facts.go`):
build the command, apply the fact's shell override, execute, and store the
result on the fact. -/
def runFact (exec : ExecOracle) (pwd : String) (fact : Fact) : Fact :=
  let c0 := newCommand pwd fact.Command
  let c1 := if fact.Shell ≠ "" then { c0 with Shell := fact.Shell } else c0
  { fact with Result := c1.executeWith (exec c1) }

/-- `gatherFacts` (`app/facts.go`): execute every fact's command in list
order and store each populated fact in the map under its name. -/
def gatherFacts (exec : ExecOracle) (pwd : String) (facts : List Fact) :
    FactsMap :=
  facts.foldl (fun m fact => mapInsert m fact.Name (runFact exec pwd fact)) []

/-- `Facts.toEnvironment` (`app/facts.go`): project the gathered facts onto
the environment injected into rules and actions; only facts with non-empty
stdout and exit code 0 contribute. -/
def toEnvironment (facts : FactsMap) : EnvMap :=
  facts.foldl
    (fun env kv =>
      if kv.2.Result.Stdout ≠ "" ∧ kv.2.Result.Rc = 0 then
        mapInsert env kv.1 kv.2.Result.Stdout
      else env)
    []

/-- `app.Action` (`app/config.go`): a conditional side-effecting command. -/
structure Action where
  Command : String
  Rules : List String
  Shell : String
  deriving DecidableEq, Repr

/-- One structured log event, with the fields the engine sets on the
`"fact gathered"`, `"rule checked"` and `"action executed"` messages
(`app/facts.go`, `app/actions.go`). -/
structure LogEvent where
  msg : String
  level : String
  command : String
  dir : String
  rc : Int
  stdout : String
  stderr : String
  err : Option GoError
  deriving DecidableEq, Repr

/-- Severity classification shared by `logFactGathered` and
`logActionExecuted`: `error` when the recorded error is non-nil, else
`warn` when stderr is non-empty, else `debug`. -/
def classifyLevel (c : SysCommand) : String :=
  if c.Error ≠ none then "error"
  else if c.Stderr ≠ "" then "warn"
  else "debug"

/-- `logRuleChecked` (`app/actions.go`): always at `debug` severity. -/
def ruleCheckedEvent (rule : String) (c : SysCommand) : LogEvent :=
  { msg := "rule checked", level := "debug", command := rule,
    dir := c.Directory, rc := c.Rc, stdout := c.Stdout, stderr := c.Stderr,
    err := c.Error }

/-- `logActionExecuted` (`app/actions.go`). -/
def actionExecutedEvent (action : Action) (c : SysCommand) : LogEvent :=
  { msg := "action executed", level := classifyLevel c,
    command := action.Command, dir := c.Directory, rc := c.Rc,
    stdout := c.Stdout, stderr := c.Stderr, err := c.Error }

/-- `logFactGathered` (`app/facts.go`). -/
def factGatheredEvent (fact : Fact) (c : SysCommand) : LogEvent :=
  { msg := "fact gathered", level := classifyLevel c, command := fact.Command,
    dir := c.Directory, rc := c.Rc, stdout := c.Stdout, stderr := c.Stderr,
    err := c.Error }

/-- One rule evaluation inside `checkActionRules` (`app/actions.go`):
`c := system.NewCommand(rule); c.Environment = facts.toEnvironment();
c.Execute()`.  Rules always use the default shell. -/
def runRule (exec : ExecOracle) (pwd : String) (env : EnvMap)
    (rule : String) : SysCommand :=
  let c := { newCommand pwd rule with Environment := env }
  c.executeWith (exec c)

/-- The loop of `checkActionRules` (`app/actions.go`): evaluate the rules in
order, log each executed rule, and return `false` at the first rule whose
exit code is non-zero, leaving the remaining rules unexecuted.  Returns the
verdict together with the emitted `"rule checked"` log events. -/
def checkRules (exec : ExecOracle) (pwd : String) (env : EnvMap) :
    List String → Bool × List LogEvent
  | [] => (true, [])
  | rule :: rest =>
    let c := runRule exec pwd env rule
    let ev := ruleCheckedEvent rule c
    if c.Rc ≠ 0 then (false, [ev])
    else
      let r := checkRules exec pwd env rest
      (r.1, ev :: r.2)

/-- `checkActionRules` (`app/actions.go`), with its log trace. -/
def checkActionRules (exec : ExecOracle) (pwd : String) (action : Action)
    (facts : FactsMap) : Bool × List LogEvent :=
  checkRules exec pwd (toEnvironment facts) action.Rules

/-- The action invocation inside `executeActions` (`app/actions.go`):
`c := system.NewCommand(action.Command); c.Environment =
facts.toEnvironment(); c.Execute()` (the action's `Shell` field is not
applied there). -/
def runAction (exec : ExecOracle) (pwd : String) (facts : FactsMap)
    (action : Action) : SysCommand :=
  let c := { newCommand pwd action.Command with
             Environment := toEnvironment facts }
  c.executeWith (exec c)

/-- `executeActions` (`app/actions.go`): for each action in list order,
check its rules; when they all pass, execute the action's command and log
it.  Returns the full emitted log trace. -/
def executeActions (exec : ExecOracle) (pwd : String) (actions : List Action)
    (facts : FactsMap) : List LogEvent :=
  match actions with
  | [] => []
  | action :: rest =>
    let r := checkActionRules exec pwd action facts
    let here :=
      if r.1 then
        r.2 ++ [actionExecutedEvent action (runAction exec pwd facts action)]
      else r.2
    here ++ executeActions exec pwd rest facts

/-- Outcome of `os.Getwd` as observed by `system.NewCommand`
(`system/command.go`): the working directory, or the error on which
`NewCommand` panics. -/
abbrev GetwdResult : Type := Except String String

/-- `system.NewCommand` including its panic path: `NewCommand` calls
`panic(err.Error())` when `os.Getwd` fails (the behaviour its own test
`TestNewCommandGetCwdError` expects).  The panic is modelled as `Except`
propagation. -/
def newCommandE (getwd : GetwdResult) (command : String) :
    Except String SysCommand :=
  match getwd with
  | Except.error e => Except.error e
  | Except.ok pwd => Except.ok (newCommand pwd command)

/-- `gatherFacts` (`app/facts.go`) including the panic path of
`system.NewCommand`: a `Getwd` failure escapes the gatherer as a panic,
while every command-execution failure is recorded on the fact. -/
def gatherFactsE (getwd : GetwdResult) (exec : ExecOracle)
    (facts : List Fact) : Except String FactsMap :=
  go facts []
where
  /-- The gathering loop; the accumulator is the temporary storage map. -/
  go : List Fact → FactsMap → Except String FactsMap
  | [], m => Except.ok m
  | fact :: rest, m =>
    match newCommandE getwd fact.Command with
    | Except.error e => Except.error e
    | Except.ok c0 =>
      let c1 := if fact.Shell ≠ "" then { c0 with Shell := fact.Shell }
                else c0
      let executed := c1.executeWith (exec c1)
      go rest (mapInsert m fact.Name { fact with Result := executed })

/-- `app.Daemon` (`app/config.go`). -/
structure Daemon where
  Interval : String
  deriving DecidableEq, Repr

/-- `system.LogConfig` (`system/logging.go`); its struct tags carry no
`json:` key, so JSON uses the field names. -/
structure LogConfig where
  File : String
  Level : String
  Quiet : Bool
  JSON : Bool
  deriving DecidableEq, Repr

/-- `app.Config` (`app/config.go`). `Hash` is `uint32`; `CalculateHash`
always produces a value below `2^32`, so it is carried as `Nat`. -/
structure Config where
  Daemon : Daemon
  Logging : LogConfig
  Facts : List Fact
  Actions : List Action
  Hash : Nat
  deriving DecidableEq, Repr

/-- `Config.Merge` (`app/config.go`): each statement of the Go method in
order; string fields are overridden only when the argument's value is
non-empty, booleans only when `true`, and the `Facts` and `Actions` slices
are appended to.  `Hash` is not touched. -/
def Config.merge (c : Config) (m : Config) : Config :=
  let c1 := if m.Daemon.Interval ≠ "" then
      { c with Daemon := { c.Daemon with Interval := m.Daemon.Interval } }
    else c
  let c2 := if m.Logging.File ≠ "" then
      { c1 with Logging := { c1.Logging with File := m.Logging.File } }
    else c1
  let c3 := if m.Logging.Level ≠ "" then
      { c2 with Logging := { c2.Logging with Level := m.Logging.Level } }
    else c2
  let c4 := if m.Logging.Quiet then
      { c3 with Logging := { c3.Logging with Quiet := m.Logging.Quiet } }
    else c3
  let c5 := if m.Logging.JSON then
      { c4 with Logging := { c4.Logging with JSON := m.Logging.JSON } }
    else c4
  let c6 := if m.Facts.length > 0 then
      { c5 with Facts := c5.Facts ++ m.Facts }
    else c5
  let c7 := if m.Actions.length > 0 then
      { c6 with Actions := c6.Actions ++ m.Actions }
    else c6
  c7

/-! ### `encoding/json` serialization of `Config`, as used by
`Config.CalculateHash` (`app/config.go`).

The encoder below produces the byte sequence `json.Marshal` produces for
these struct types: fields in declaration order under their Go names,
strings escaped as Go does (including the default HTML escaping of
`<`, `>`, `&`), map keys sorted, and nil maps/slices — the zero values a
freshly parsed configuration carries — encoded as `null`. -/

/-- Lower-case hexadecimal digit, as a byte. -/
def hexDigitByte (n : Nat) : Nat :=
  if n < 10 then 48 + n else 87 + n

/-- UTF-8 encoding of one code point. -/
def utf8Bytes (n : Nat) : List Nat :=
  if n < 128 then [n]
  else if n < 2048 then [192 + n / 64, 128 + n % 64]
  else if n < 65536 then [224 + n / 4096, 128 + n / 64 % 64, 128 + n % 64]
  else [240 + n / 262144, 128 + n / 4096 % 64, 128 + n / 64 % 64,
        128 + n % 64]

/-- `encoding/json` escaping of one character of a string value. -/
def jsonEscapeChar (n : Nat) : List Nat :=
  if n = 34 then [92, 34]
  else if n = 92 then [92, 92]
  else if n = 10 then [92, 110]
  else if n = 13 then [92, 114]
  else if n = 9 then [92, 116]
  else if n < 32 ∨ n = 60 ∨ n = 62 ∨ n = 38 then
    [92, 117, 48, 48, hexDigitByte (n / 16), hexDigitByte (n % 16)]
  else if n = 8232 ∨ n = 8233 then
    [92, 117, 50, 48, 50, hexDigitByte (n % 16)]
  else utf8Bytes n

/-- JSON string literal bytes. -/
def jsonStringBytes (s : String) : List Nat :=
  34 :: (s.data.foldr (fun c acc => jsonEscapeChar c.toNat ++ acc) [34])

/-- Decimal digits of a natural number, as bytes. -/
def natBytes (n : Nat) : List Nat :=
  (Nat.toDigits 10 n).map Char.toNat

/-- Decimal representation of an integer, as bytes. -/
def intBytes (i : Int) : List Nat :=
  if i < 0 then 45 :: natBytes (-i).toNat else natBytes i.toNat

/-- Comma-separated concatenation. -/
def sepJoin : List (List Nat) → List Nat
  | [] => []
  | [x] => x
  | x :: rest => x ++ 44 :: sepJoin rest

/-- One `"key":value` object member. -/
def jsonMember (k : String) (v : List Nat) : List Nat :=
  jsonStringBytes k ++ 58 :: v

/-- JSON object from already-encoded members. -/
def jsonObj (fields : List (List Nat)) : List Nat :=
  123 :: sepJoin fields ++ [125]

/-- JSON array from already-encoded elements. -/
def jsonArr (elems : List (List Nat)) : List Nat :=
  91 :: sepJoin elems ++ [93]

/-- `null`. -/
def jsonNull : List Nat := [110, 117, 108, 108]

/-- `true` / `false`. -/
def jsonBool (b : Bool) : List Nat :=
  if b then [116, 114, 117, 101] else [102, 97, 108, 115, 101]

/-- Insertion into a key-sorted association list (`json.Marshal` emits map
keys in sorted order). -/
def insertSorted (p : String × String) :
    List (String × String) → List (String × String)
  | [] => [p]
  | q :: rest =>
    if p.1 < q.1 then p :: q :: rest else q :: insertSorted p rest

/-- Key-sorted copy of an environment map. -/
def envSorted (m : EnvMap) : List (String × String) :=
  m.foldl (fun acc p => insertSorted p acc) []

/-- `map[string]string` encoding: a nil map (the zero value, the only form
occurring in hashed configurations) is `null`; otherwise an object with
sorted keys. -/
def jsonEnvBytes (m : EnvMap) : List Nat :=
  match m with
  | [] => jsonNull
  | _ =>
    jsonObj ((envSorted m).map (fun p => jsonMember p.1 (jsonStringBytes p.2)))

/-- Encoding of the `error` field of `system.Command`.  A nil error — the
only value a configuration submitted to hashing carries — is `null`; the
non-nil shapes follow `json.Marshal` of `*exec.ExitError` (its embedded
`*os.ProcessState` has no exported fields) and of `*fs.PathError`. -/
def jsonGoErrorBytes : Option GoError → List Nat
  | none => jsonNull
  | some (GoError.exitError _) => jsonObj [jsonMember "Stderr" jsonNull]
  | some (GoError.startError msg) =>
    jsonObj [jsonMember "Op" (jsonStringBytes "fork/exec"),
             jsonMember "Path" (jsonStringBytes msg),
             jsonMember "Err" jsonNull]

/-- `json.Marshal` of `system.Command`. -/
def jsonCommandBytes (c : SysCommand) : List Nat :=
  jsonObj [jsonMember "Command" (jsonStringBytes c.Command),
           jsonMember "Environment" (jsonEnvBytes c.Environment),
           jsonMember "Directory" (jsonStringBytes c.Directory),
           jsonMember "Timeout" (intBytes c.Timeout),
           jsonMember "Shell" (jsonStringBytes c.Shell),
           jsonMember "Stdout" (jsonStringBytes c.Stdout),
           jsonMember "Stderr" (jsonStringBytes c.Stderr),
           jsonMember "Rc" (intBytes c.Rc),
           jsonMember "Error" (jsonGoErrorBytes c.Error)]

/-- `json.Marshal` of `app.Fact`. -/
def jsonFactBytes (f : Fact) : List Nat :=
  jsonObj [jsonMember "Name" (jsonStringBytes f.Name),
           jsonMember "Command" (jsonStringBytes f.Command),
           jsonMember "Shell" (jsonStringBytes f.Shell),
           jsonMember "Result" (jsonCommandBytes f.Result)]

/-- `json.Marshal` of `app.Action` (`Rules` nil slice encodes as `null`). -/
def jsonActionBytes (a : Action) : List Nat :=
  jsonObj [jsonMember "Command" (jsonStringBytes a.Command),
           jsonMember "Rules"
             (match a.Rules with
              | [] => jsonNull
              | rules => jsonArr (rules.map jsonStringBytes)),
           jsonMember "Shell" (jsonStringBytes a.Shell)]

/-- `json.Marshal` of `app.Daemon`. -/
def jsonDaemonBytes (d : Daemon) : List Nat :=
  jsonObj [jsonMember "Interval" (jsonStringBytes d.Interval)]

/-- `json.Marshal` of `system.LogConfig`. -/
def jsonLogConfigBytes (l : LogConfig) : List Nat :=
  jsonObj [jsonMember "File" (jsonStringBytes l.File),
           jsonMember "Level" (jsonStringBytes l.Level),
           jsonMember "Quiet" (jsonBool l.Quiet),
           jsonMember "JSON" (jsonBool l.JSON)]

/-- `json.Marshal` of `app.Config` (nil slices encode as `null`). -/
def jsonConfigBytes (c : Config) : List Nat :=
  jsonObj [jsonMember "Daemon" (jsonDaemonBytes c.Daemon),
           jsonMember "Logging" (jsonLogConfigBytes c.Logging),
           jsonMember "Facts"
             (match c.Facts with
              | [] => jsonNull
              | facts => jsonArr (facts.map jsonFactBytes)),
           jsonMember "Actions"
             (match c.Actions with
              | [] => jsonNull
              | actions => jsonArr (actions.map jsonActionBytes)),
           jsonMember "Hash" (natBytes c.Hash)]

/-- `adler32Hash` (`app/config.go`, via `hash/adler32`): `a` and `b` run
modulo 65521; the checksum is `b * 2^16 + a`. -/
def adler32 (data : List Nat) : Nat :=
  let r := data.foldl
    (fun ab byte =>
      let a := (ab.1 + byte) % 65521
      (a, (ab.2 + a) % 65521))
    (1, 0)
  r.2 * 65536 + r.1

/-- `Config.CalculateHash` (`app/config.go`): zero the `Hash` field, JSON
serialize, and take the Adler-32 checksum. -/
def Config.calculateHash (c : Config) : Nat :=
  adler32 (jsonConfigBytes { c with Hash := 0 })

/-- The per-iteration sleep decision of the daemon loop (`cmd/daemon.go`).
`minInterval` and `runDuration` are Go `time.Duration` values in
nanoseconds; `runDuration` comes from the monotonic clock and is never
negative, and a non-positive interval never reaches the sleep branch, so
both are carried as `Nat`.  When `runDuration < minInterval` the loop
sleeps `wait := time.Duration(minInterval.Milliseconds() -
runDuration.Milliseconds()) * time.Millisecond` (an `Int`, in
nanoseconds); otherwise it proceeds immediately (`none`). -/
def daemonSleep (minInterval runDuration : Nat) : Option Int :=
  if runDuration < minInterval then
    some ((((minInterval / 1000000 : Nat) : Int) -
           ((runDuration / 1000000 : Nat) : Int)) * 1000000)
  else none

/-- The filter deciding membership in the derived environment: the
condition of `Facts.toEnvironment` (`app/facts.go`). -/
def envEligible (f : Fact) : Prop :=
  f.Result.Stdout ≠ "" ∧ f.Result.Rc = 0

instance (f : Fact) : Decidable (envEligible f) := by
  unfold envEligible; infer_instance

/-- The last fact with a given name in a fact list — the one whose
gathered result survives in the map, since `gatherFacts` writes the
facts in list order. -/
def lastOcc : List Fact → String → Option Fact
  | [], _ => none
  | fact :: rest, k =>
    match lastOcc rest k with
    | some f => some f
    | none => if fact.Name = k then some fact else none

theorem mapGet_eq_none_of_forall_ne {α : Type} (m : List (String × α))
    (k : String) (h : ∀ q ∈ m, q.1 ≠ k) : mapGet m k = none := by
  induction m with
  | nil => rfl
  | cons q rest ih =>
    simp only [mapGet, if_neg (h q (List.mem_cons_self q rest))]
    exact ih (fun r hr => h r (List.mem_cons_of_mem q hr))

theorem mapGet_mapInsert {α : Type} (m : List (String × α)) (k j : String)
    (v : α) :
    mapGet (mapInsert m k v) j = if k = j then some v else mapGet m j := by
  induction m with
  | nil =>
    by_cases h : k = j <;> simp [mapInsert, mapGet, h]
  | cons p rest ih =>
    unfold mapInsert at ih ⊢
    rw [List.filter_cons]
    by_cases hpk : p.1 = k
    · rw [if_neg (by simp [hpk])]
      rw [ih]
      by_cases hkj : k = j
      · simp [hkj]
      · have hpj : ¬p.1 = j := by rw [hpk]; exact hkj
        simp [mapGet, hkj, hpj]
    · rw [if_pos (by simp [hpk])]
      by_cases hpj : p.1 = j
      · have hkj : ¬k = j := fun h => hpk (by rw [h, hpj])
        simp [mapGet, hpj, hkj]
      · simp only [mapGet, List.cons_append, if_neg hpj, List.append_eq]
        rw [ih]

theorem noDupKeys_mapInsert {α : Type} (m : List (String × α)) (k : String)
    (v : α) (h : NoDupKeys m) : NoDupKeys (mapInsert m k v) := by
  unfold NoDupKeys mapInsert
  rw [List.pairwise_append]
  refine ⟨List.Pairwise.filter _ h, List.pairwise_singleton _ _, ?_⟩
  intro a ha b hb
  rcases List.mem_filter.mp ha with ⟨-, hprop⟩
  rcases List.mem_singleton.mp hb with rfl
  simpa using hprop

theorem noDupKeys_gatherFold (exec : ExecOracle) (pwd : String)
    (l : List Fact) (acc : FactsMap) (h : NoDupKeys acc) :
    NoDupKeys (l.foldl
      (fun m fact => mapInsert m fact.Name (runFact exec pwd fact)) acc) := by
  induction l generalizing acc with
  | nil => exact h
  | cons fact rest ih =>
    exact ih _ (noDupKeys_mapInsert _ _ _ h)

theorem noDupKeys_gatherFacts (exec : ExecOracle) (pwd : String)
    (facts : List Fact) : NoDupKeys (gatherFacts exec pwd facts) :=
  noDupKeys_gatherFold exec pwd facts [] List.Pairwise.nil

theorem mapGet_gatherFold (exec : ExecOracle) (pwd : String)
    (l : List Fact) (acc : FactsMap) (k : String) :
    mapGet (l.foldl
      (fun m fact => mapInsert m fact.Name (runFact exec pwd fact)) acc) k =
      match lastOcc l k with
      | some f => some (runFact exec pwd f)
      | none => mapGet acc k := by
  induction l generalizing acc with
  | nil => rfl
  | cons fact rest ih =>
    simp only [List.foldl_cons, lastOcc]
    rw [ih]
    cases hrest : lastOcc rest k with
    | some f => simp
    | none =>
      simp only []
      rw [mapGet_mapInsert]
      by_cases hk : fact.Name = k <;> simp [hk]

/-- The value stored in the gathered map under a name is the executed copy
of the last fact in the list carrying that name. -/
theorem mapGet_gatherFacts (exec : ExecOracle) (pwd : String)
    (facts : List Fact) (k : String) :
    mapGet (gatherFacts exec pwd facts) k =
      match lastOcc facts k with
      | some f => some (runFact exec pwd f)
      | none => none := by
  unfold gatherFacts
  rw [mapGet_gatherFold]
  cases lastOcc facts k <;> rfl

theorem lastOcc_isSome (l : List Fact) (k : String) :
    (lastOcc l k).isSome = true ↔ k ∈ l.map Fact.Name := by
  induction l with
  | nil => simp [lastOcc]
  | cons fact rest ih =>
    simp only [lastOcc, List.map_cons, List.mem_cons]
    cases hrest : lastOcc rest k with
    | some f =>
      rw [hrest] at ih
      simp only [Option.isSome_some, true_iff] at ih
      simp [ih]
    | none =>
      rw [hrest] at ih
      simp only [Option.isSome_none, Bool.false_eq_true, false_iff] at ih
      by_cases hk : fact.Name = k
      · simp [hk]
      · have hkf : ¬k = fact.Name := fun h => hk h.symm
        simp [hk, hkf, ih]

theorem mapGet_toEnvFold (m : FactsMap) (env : EnvMap) (k : String)
    (h : NoDupKeys m) :
    mapGet (m.foldl
      (fun e kv =>
        if kv.2.Result.Stdout ≠ "" ∧ kv.2.Result.Rc = 0 then
          mapInsert e kv.1 kv.2.Result.Stdout
        else e) env) k =
      match mapGet m k with
      | some f => if envEligible f then some f.Result.Stdout else mapGet env k
      | none => mapGet env k := by
  induction m generalizing env with
  | nil => rfl
  | cons p rest ih =>
    have hnodup : NoDupKeys rest :=
      List.Pairwise.sublist (List.sublist_cons_self p rest) h
    have hhead : ∀ q ∈ rest, p.1 ≠ q.1 :=
      fun q hq => List.rel_of_pairwise_cons h hq
    simp only [List.foldl_cons]
    rw [ih _ hnodup]
    by_cases hpk : p.1 = k
    · have hrest : mapGet rest k = none :=
        mapGet_eq_none_of_forall_ne rest k
          (fun q hq hcl => hhead q hq (by rw [hpk, hcl]))
      rw [hrest]
      simp only [mapGet, hpk, if_pos rfl]
      by_cases he : envEligible p.2
      · have he2 := he
        unfold envEligible at he2
        simp [he2, he, mapGet_mapInsert, hpk]
      · have he2 := he
        unfold envEligible at he2
        simp [he2, he]
    · simp only [mapGet, if_neg hpk]
      by_cases he : envEligible p.2
      · have he2 := he
        unfold envEligible at he2
        cases hmk : mapGet rest k <;>
          simp [he2, mapGet_mapInsert, hpk, hmk]
      · have he2 := he
        unfold envEligible at he2
        cases hmk : mapGet rest k <;> simp [he2, hmk]

/-- Reading the derived environment of a facts map with unique keys: the
entry exists exactly for eligible facts and holds their stdout. -/
theorem mapGet_toEnvironment (m : FactsMap) (k : String) (h : NoDupKeys m) :
    mapGet (toEnvironment m) k =
      match mapGet m k with
      | some f => if envEligible f then some f.Result.Stdout else none
      | none => none := by
  unfold toEnvironment
  rw [mapGet_toEnvFold m [] k h]
  cases mapGet m k <;> rfl

theorem filterKey_length_of_noDupKeys {α : Type} (m : List (String × α))
    (k : String) (h : NoDupKeys m) :
    (m.filter (fun p => p.1 = k)).length =
      if (mapGet m k).isSome then 1 else 0 := by
  induction m with
  | nil => simp [mapGet]
  | cons p rest ih =>
    have hnodup : NoDupKeys rest :=
      List.Pairwise.sublist (List.sublist_cons_self p rest) h
    have hhead : ∀ q ∈ rest, p.1 ≠ q.1 :=
      fun q hq => List.rel_of_pairwise_cons h hq
    by_cases hpk : p.1 = k
    · have hrest : mapGet rest k = none :=
        mapGet_eq_none_of_forall_ne rest k
          (fun q hq hcl => hhead q hq (by rw [hpk, hcl]))
      have hfilter : rest.filter (fun p => p.1 = k) = [] := by
        rw [List.filter_eq_nil_iff]
        intro q hq
        simp only [decide_eq_true_eq]
        exact fun hcl => hhead q hq (by rw [hpk, hcl])
      simp [List.filter_cons, hpk, hfilter, mapGet]
    · simp only [List.filter_cons, decide_eq_true_eq, hpk, if_false]
      rw [ih hnodup]
      simp [mapGet, hpk]

/-! ### Concrete fixtures used by witnesses and counterexamples. -/

/-- A working directory for concrete runs. -/
def wPwd : String := "/work"

/-- Oracle: the command string `okcmd` starts, exits 0 and prints `val`;
every other command starts and exits 1 with no output. -/
def execW : ExecOracle := fun c =>
  if c.Command = "okcmd" then
    { started := true, exitCode := 0, rawStdout := "val\n", rawStderr := "" }
  else
    { started := true, exitCode := 1, rawStdout := "", rawStderr := "" }

/-- A fact whose command succeeds under `execW`. -/
def factOK : Fact :=
  { Name := "A", Command := "okcmd", Shell := "", Result := zeroCommand }

/-- A fact with the same name whose command fails under `execW`. -/
def factBad : Fact :=
  { Name := "A", Command := "badcmd", Shell := "", Result := zeroCommand }

/-- A fact with a different name whose command fails under `execW`. -/
def factBadB : Fact :=
  { Name := "B", Command := "badcmd", Shell := "", Result := zeroCommand }

/-- Claim C3 — counterexample.  A process that starts successfully and
exits with code 1: `Command.Execute` records `Rc = 1` but a non-nil
`Error` (Go's `cmd.Run` returns an `*exec.ExitError` for a non-zero
exit), contradicting the claim that the spawn-error field is nil for an
ordinary non-zero exit.  This matches the repository's own tests, which
expect the log line `error="exit status 1"` for such a command. -/
theorem C3_counterexample :
    ((newCommand "/work" "somecmd").executeWith
        { started := true, exitCode := 1, rawStdout := "out\n",
          rawStderr := "" }).Rc = 1 ∧
    ((newCommand "/work" "somecmd").executeWith
        { started := true, exitCode := 1, rawStdout := "out\n",
          rawStderr := "" }).Error ≠ none := by
  decide

/-- Claim C3 (amended): a command whose process starts and exits with a
non-zero code is recorded with that non-zero exit code and with a
non-nil error (the exit error `cmd.Run` returns); the error field is nil
exactly when the process started and exited with code 0. -/
theorem C3_amended_exitError (c : SysCommand) (o : ProcOutcome) :
    (o.started = true → o.exitCode ≠ 0 →
      (c.executeWith o).Rc = o.exitCode ∧ (c.executeWith o).Rc ≠ 0 ∧
      (c.executeWith o).Error = some (GoError.exitError o.exitCode)) ∧
    ((c.executeWith o).Error = none ↔ o.started = true ∧ o.exitCode = 0) := by
  unfold SysCommand.executeWith goRunError processStateExitCode
  cases hs : o.started <;> by_cases hz : o.exitCode = 0 <;> simp [hs, hz]

/-- Claim C3 — witness for the amended theorem at a concrete input. -/
theorem C3_witness :
    ((newCommand "/work" "somecmd").executeWith
        { started := true, exitCode := 1, rawStdout := "out\n",
          rawStderr := "" }).Error = some (GoError.exitError 1) :=
  ((C3_amended_exitError (newCommand "/work" "somecmd")
      { started := true, exitCode := 1, rawStdout := "out\n",
        rawStderr := "" }).1 rfl (by decide)).2.2

/-- Claim C5: the checksum field is excluded from its own input — the
checksum of a configuration does not depend on the value its `Hash`
field holds — and recomputing the checksum on the re-stamped
configuration yields the same value. -/
theorem C5_hash_excluded_and_stable (c : Config) (X Y : Nat) :
    Config.calculateHash { c with Hash := X } =
      Config.calculateHash { c with Hash := Y } ∧
    Config.calculateHash { c with Hash := Config.calculateHash c } =
      Config.calculateHash c :=
  ⟨rfl, rfl⟩

/-- Claim C7 — counterexample.  Interval 1ms (1000000ns), pass duration
1ns: the code sleeps `interval.Milliseconds() - elapsed.Milliseconds()`
milliseconds, i.e. a full 1000000ns, not `interval - elapsed = 999999ns`
as the claim states. -/
theorem C7_counterexample :
    daemonSleep 1000000 1 = some 1000000 ∧
    ((1000000 : Int) - 1 ≠ 1000000) := by
  decide

/-- Claim C7 (amended): when the measured pass duration is strictly less
than the interval, the loop sleeps the millisecond-truncated difference
`interval.Milliseconds() - elapsed.Milliseconds()` (within one
millisecond of `interval - elapsed`), never a negative duration;
otherwise the next pass starts immediately with no sleep. -/
theorem C7_amended_sleep (minInterval runDuration : Nat) :
    (runDuration < minInterval →
      daemonSleep minInterval runDuration =
        some ((((minInterval / 1000000 : Nat) : Int) -
               ((runDuration / 1000000 : Nat) : Int)) * 1000000) ∧
      ∀ w, daemonSleep minInterval runDuration = some w →
        0 ≤ w ∧
        ((minInterval : Int) - (runDuration : Int)) - 1000000 < w ∧
        w < ((minInterval : Int) - (runDuration : Int)) + 1000000) ∧
    (minInterval ≤ runDuration → daemonSleep minInterval runDuration = none)
    := by
  constructor
  · intro hlt
    have hdef : daemonSleep minInterval runDuration =
        some ((((minInterval / 1000000 : Nat) : Int) -
               ((runDuration / 1000000 : Nat) : Int)) * 1000000) := by
      unfold daemonSleep
      rw [if_pos hlt]
    refine ⟨hdef, ?_⟩
    intro w hw
    rw [hdef] at hw
    have hw2 : w = (((minInterval / 1000000 : Nat) : Int) -
        ((runDuration / 1000000 : Nat) : Int)) * 1000000 :=
      (Option.some_inj.mp hw).symm
    have hi := Nat.div_add_mod minInterval 1000000
    have he := Nat.div_add_mod runDuration 1000000
    have him : minInterval % 1000000 < 1000000 :=
      Nat.mod_lt _ (by norm_num)
    have hem : runDuration % 1000000 < 1000000 :=
      Nat.mod_lt _ (by norm_num)
    subst hw2
    omega
  · intro hge
    unfold daemonSleep
    rw [if_neg (by omega)]

/-- Claim C7 — witness: a 5s interval and a 1s pass sleep exactly 4s. -/
theorem C7_witness : daemonSleep 5000000000 1000000000 = some 4000000000 :=
  (((C7_amended_sleep 5000000000 1000000000).1 (by decide)).1).trans
    (by decide)

/-- Claim C1: for every gathered fact, the derived environment contains an
entry under the fact's name iff the fact's command exited with code 0 and
produced non-empty stdout (then the entry holds that stdout), and a fact
with non-zero exit code or empty stdout contributes no key at all; names
not in the gathered map have no entry either. -/
theorem C1_env_entry_iff (exec : ExecOracle) (pwd : String)
    (facts : List Fact) (name : String) :
    (∀ f, mapGet (gatherFacts exec pwd facts) name = some f →
      mapGet (toEnvironment (gatherFacts exec pwd facts)) name =
        (if f.Result.Rc = 0 ∧ f.Result.Stdout ≠ "" then
          some f.Result.Stdout
        else none)) ∧
    (mapGet (gatherFacts exec pwd facts) name = none →
      mapGet (toEnvironment (gatherFacts exec pwd facts)) name = none) := by
  have henv := mapGet_toEnvironment (gatherFacts exec pwd facts) name
    (noDupKeys_gatherFacts exec pwd facts)
  constructor
  · intro f hf
    rw [hf] at henv
    rw [henv]
    show (if envEligible f then some f.Result.Stdout else none) = _
    by_cases he : envEligible f
    · have he2 := he
      unfold envEligible at he2
      rw [if_pos he, if_pos ⟨he2.2, he2.1⟩]
    · have he2 : ¬(f.Result.Stdout ≠ "" ∧ f.Result.Rc = 0) := he
      rw [if_neg he, if_neg (fun h => he2 ⟨h.2, h.1⟩)]
  · intro hf
    rw [hf] at henv
    exact henv

/-- Claim C1 — witness: under `execW`, the succeeding fact `A` appears in
the derived environment with its stdout, and the failing fact `B`
contributes no key. -/
theorem C1_witness :
    mapGet (toEnvironment (gatherFacts execW wPwd [factOK, factBadB]))
      "A" = some "val" ∧
    mapGet (toEnvironment (gatherFacts execW wPwd [factOK, factBadB]))
      "B" = none := by
  constructor
  · have h := (C1_env_entry_iff execW wPwd [factOK, factBadB] "A").1
      (runFact execW wPwd factOK) (by decide)
    rw [h]
    decide
  · have h := (C1_env_entry_iff execW wPwd [factOK, factBadB] "B").1
      (runFact execW wPwd factBadB) (by decide)
    rw [h]
    decide

/-- Claim C9 — counterexample.  Two facts named `A`: the earlier one
succeeds with stdout `val`, the later one fails.  The derived environment
does not map `A` to the stdout of the fact gathered later (or to
anything): the later fact shadows the earlier one in the map and is then
filtered out, so `A` has no entry at all, even though an earlier
same-named fact succeeded. -/
theorem C9_counterexample :
    ([factOK, factBad].map Fact.Name = ["A", "A"]) ∧
    (runFact execW wPwd factOK).Result.Stdout = "val" ∧
    (runFact execW wPwd factOK).Result.Rc = 0 ∧
    mapGet (toEnvironment (gatherFacts execW wPwd [factOK, factBad]))
      "A" = none := by
  decide

/-- Claim C9 (amended): with duplicate fact names, the gathered map keeps
only the fact occurring last in list order (earlier same-named facts are
silently shadowed), and the derived environment therefore holds an entry
for the name iff that last-gathered fact's command exited 0 with
non-empty stdout — mapping to that fact's stdout — and no entry
otherwise, even when a shadowed earlier fact succeeded. -/
theorem C9_amended_last_wins (exec : ExecOracle) (pwd : String)
    (facts : List Fact) (name : String)
    (hdup : 2 ≤ (facts.filter (fun f => f.Name = name)).length) :
    ∃ g, lastOcc facts name = some g ∧
      mapGet (gatherFacts exec pwd facts) name =
        some (runFact exec pwd g) ∧
      mapGet (toEnvironment (gatherFacts exec pwd facts)) name =
        (if (runFact exec pwd g).Result.Rc = 0 ∧
            (runFact exec pwd g).Result.Stdout ≠ "" then
          some (runFact exec pwd g).Result.Stdout
        else none) := by
  have hmem : name ∈ facts.map Fact.Name := by
    have hne : facts.filter (fun f => f.Name = name) ≠ [] := by
      intro hnil
      rw [hnil] at hdup
      simp at hdup
    rcases List.exists_mem_of_ne_nil _ hne with ⟨f, hf⟩
    rcases List.mem_filter.mp hf with ⟨hfin, hfname⟩
    exact List.mem_map.mpr ⟨f, hfin, by simpa using hfname⟩
  have hsome : (lastOcc facts name).isSome = true :=
    (lastOcc_isSome facts name).mpr hmem
  rcases Option.isSome_iff_exists.mp hsome with ⟨g, hg⟩
  refine ⟨g, hg, ?_, ?_⟩
  · rw [mapGet_gatherFacts, hg]
  · have henv := mapGet_toEnvironment (gatherFacts exec pwd facts) name
      (noDupKeys_gatherFacts exec pwd facts)
    rw [mapGet_gatherFacts, hg] at henv
    rw [henv]
    show (if envEligible (runFact exec pwd g) then
        some (runFact exec pwd g).Result.Stdout
      else none) = _
    by_cases he : envEligible (runFact exec pwd g)
    · have he2 := he
      unfold envEligible at he2
      rw [if_pos he, if_pos ⟨he2.2, he2.1⟩]
    · have he2 : ¬((runFact exec pwd g).Result.Stdout ≠ "" ∧
          (runFact exec pwd g).Result.Rc = 0) := he
      rw [if_neg he, if_neg (fun h => he2 ⟨h.2, h.1⟩)]

/-- Claim C9 — witness for the amended theorem on the concrete
duplicate-name list. -/
theorem C9_witness :
    ∃ g, lastOcc [factOK, factBad] "A" = some g ∧
      mapGet (gatherFacts execW wPwd [factOK, factBad]) "A" =
        some (runFact execW wPwd g) ∧
      mapGet (toEnvironment (gatherFacts execW wPwd [factOK, factBad]))
        "A" =
        (if (runFact execW wPwd g).Result.Rc = 0 ∧
            (runFact execW wPwd g).Result.Stdout ≠ "" then
          some (runFact execW wPwd g).Result.Stdout
        else none) :=
  C9_amended_last_wins execW wPwd [factOK, factBad] "A" (by decide)

/-- Claim C10: the gathered map has exactly one entry per distinct fact
name of the input list — facts whose command failed or printed nothing
included — and every stored fact is the executed copy (with its recorded
result) of the last input fact with that name. -/
theorem C10_map_complete (exec : ExecOracle) (pwd : String)
    (facts : List Fact) (name : String) :
    (((gatherFacts exec pwd facts).filter
        (fun p => p.1 = name)).length =
      if name ∈ facts.map Fact.Name then 1 else 0) ∧
    (∀ f, mapGet (gatherFacts exec pwd facts) name = some f →
      ∃ g, lastOcc facts name = some g ∧ f = runFact exec pwd g) := by
  constructor
  · rw [filterKey_length_of_noDupKeys _ _ (noDupKeys_gatherFacts exec pwd facts)]
    rw [mapGet_gatherFacts]
    cases hlast : lastOcc facts name with
    | some g =>
      have : name ∈ facts.map Fact.Name :=
        (lastOcc_isSome facts name).mp (by rw [hlast]; rfl)
      simp [this]
    | none =>
      have : ¬name ∈ facts.map Fact.Name := by
        intro hmem
        have := (lastOcc_isSome facts name).mpr hmem
        rw [hlast] at this
        simp at this
      simp [this]
  · intro f hf
    rw [mapGet_gatherFacts] at hf
    cases hlast : lastOcc facts name with
    | some g =>
      rw [hlast] at hf
      exact ⟨g, rfl, (Option.some_inj.mp hf).symm⟩
    | none =>
      rw [hlast] at hf
      simp at hf

/-- Claim C10 — witness: a failing fact is still present in the gathered
map (exactly one entry) with its recorded result. -/
theorem C10_witness :
    ((gatherFacts execW wPwd [factOK, factBadB]).filter
        (fun p => p.1 = "B")).length = 1 ∧
    (∃ g, lastOcc [factOK, factBadB] "B" = some g ∧
      runFact execW wPwd factBadB = runFact execW wPwd g) := by
  constructor
  · have h := (C10_map_complete execW wPwd [factOK, factBadB] "B").1
    rw [h]
    decide
  · exact (C10_map_complete execW wPwd [factOK, factBadB] "B").2
      (runFact execW wPwd factBadB) (by decide)

theorem checkRules_short_circuit (exec : ExecOracle) (pwd : String)
    (env : EnvMap) (good : List String) (bad : String) (rest : List String)
    (hgood : ∀ r ∈ good, (runRule exec pwd env r).Rc = 0)
    (hbad : (runRule exec pwd env bad).Rc ≠ 0) :
    checkRules exec pwd env (good ++ bad :: rest) =
      (false,
       good.map (fun r => ruleCheckedEvent r (runRule exec pwd env r)) ++
         [ruleCheckedEvent bad (runRule exec pwd env bad)]) := by
  induction good with
  | nil =>
    simp only [List.nil_append, List.map_nil]
    unfold checkRules
    rw [if_pos hbad]
  | cons r good ih =>
    have hr : (runRule exec pwd env r).Rc = 0 :=
      hgood r (List.mem_cons_self r good)
    have hrec := ih (fun q hq => hgood q (List.mem_cons_of_mem r hq))
    simp only [List.cons_append]
    unfold checkRules
    rw [if_neg (by rw [hr]; simp)]
    rw [hrec]
    simp

/-- Claim C2: for an action whose rule list is a block of passing rules
followed by a failing rule and then arbitrary further rules, evaluation
runs the rules in list order and stops at the failing rule: the emitted
log trace is exactly one `"rule checked"` event per rule up to and
including the first failing one, the rules after it produce no event, and
no `"action executed"` event is emitted for the action. -/
theorem C2_rule_short_circuit (exec : ExecOracle) (pwd : String)
    (facts : FactsMap) (cmd shell : String) (good : List String)
    (bad : String) (rest : List String)
    (hgood : ∀ r ∈ good,
      (runRule exec pwd (toEnvironment facts) r).Rc = 0)
    (hbad : (runRule exec pwd (toEnvironment facts) bad).Rc ≠ 0) :
    executeActions exec pwd
        [{ Command := cmd, Rules := good ++ bad :: rest, Shell := shell }]
        facts =
      good.map (fun r =>
        ruleCheckedEvent r (runRule exec pwd (toEnvironment facts) r)) ++
        [ruleCheckedEvent bad (runRule exec pwd (toEnvironment facts) bad)] ∧
    ∀ ev ∈ executeActions exec pwd
        [{ Command := cmd, Rules := good ++ bad :: rest, Shell := shell }]
        facts, ev.msg = "rule checked" := by
  have hcheck := checkRules_short_circuit exec pwd (toEnvironment facts)
    good bad rest hgood hbad
  have htrace : executeActions exec pwd
      [{ Command := cmd, Rules := good ++ bad :: rest, Shell := shell }]
      facts =
      good.map (fun r =>
        ruleCheckedEvent r (runRule exec pwd (toEnvironment facts) r)) ++
        [ruleCheckedEvent bad
          (runRule exec pwd (toEnvironment facts) bad)] := by
    unfold executeActions checkActionRules
    rw [hcheck]
    simp [executeActions]
  refine ⟨htrace, ?_⟩
  intro ev hev
  rw [htrace] at hev
  rcases List.mem_append.mp hev with hmap | hsingle
  · rcases List.mem_map.mp hmap with ⟨r, -, hr⟩
    rw [← hr]
    rfl
  · rcases List.mem_singleton.mp hsingle with rfl
    rfl

/-- Claim C2 — witness: concrete action with rules
`[okcmd (passes), badcmd (fails), neverrun]` over an empty facts map; the
trace is the two `"rule checked"` events only. -/
theorem C2_witness :
    executeActions execW wPwd
        [{ Command := "act", Rules := ["okcmd", "badcmd", "neverrun"],
           Shell := "" }] [] =
      [ruleCheckedEvent "okcmd"
         (runRule execW wPwd (toEnvironment []) "okcmd"),
       ruleCheckedEvent "badcmd"
         (runRule execW wPwd (toEnvironment []) "badcmd")] := by
  have h := (C2_rule_short_circuit execW wPwd [] "act" "" ["okcmd"]
    "badcmd" ["neverrun"] (by decide) (by decide)).1
  simpa using h

/-- A receiver configuration with a non-empty fact list. -/
def cBase : Config :=
  { Daemon := { Interval := "2s" },
    Logging := { File := "", Level := "info", Quiet := false, JSON := false },
    Facts := [factOK], Actions := [], Hash := 0 }

/-- An override configuration with a non-empty fact list. -/
def cOver : Config :=
  { Daemon := { Interval := "" },
    Logging := { File := "", Level := "", Quiet := false, JSON := false },
    Facts := [factBadB], Actions := [], Hash := 0 }

/-- Claim C4 — counterexample.  `Merge` appends the argument's `Facts` to
the receiver's instead of replacing them: with both lists non-empty, the
merged `Facts` field does not hold the later source's value. -/
theorem C4_counterexample :
    cOver.Facts ≠ [] ∧
    (cBase.merge cOver).Facts ≠ cOver.Facts ∧
    (cBase.merge cOver).Facts = cBase.Facts ++ cOver.Facts := by
  decide

/-- Claim C4 (amended): `Merge` overrides scalar fields only with the
argument's non-empty strings or `true` booleans and never resets a field
to empty/false, so the merged scalar holds the later source's value
whenever that value is non-empty/true; the `Facts` and `Actions` lists,
however, are concatenated — the receiver's entries followed by the
argument's — rather than replaced, and `Hash` is left untouched. -/
theorem C4_amended_merge_semantics (c m : Config) :
    c.merge m =
      { Daemon := { Interval := (if m.Daemon.Interval ≠ "" then
                                    m.Daemon.Interval
                                  else c.Daemon.Interval) },
        Logging := { File := (if m.Logging.File ≠ "" then
                                m.Logging.File
                              else c.Logging.File),
                     Level := (if m.Logging.Level ≠ "" then
                                 m.Logging.Level
                               else c.Logging.Level),
                     Quiet := c.Logging.Quiet || m.Logging.Quiet,
                     JSON := c.Logging.JSON || m.Logging.JSON },
        Facts := c.Facts ++ m.Facts,
        Actions := c.Actions ++ m.Actions,
        Hash := c.Hash } := by
  have hInt : (c.merge m).Daemon.Interval =
      if m.Daemon.Interval ≠ "" then m.Daemon.Interval
      else c.Daemon.Interval := by
    simp [Config.merge, apply_ite Config.Daemon, apply_ite Daemon.Interval]
  have hFile : (c.merge m).Logging.File =
      if m.Logging.File ≠ "" then m.Logging.File else c.Logging.File := by
    simp [Config.merge, apply_ite Config.Logging, apply_ite LogConfig.File]
  have hLevel : (c.merge m).Logging.Level =
      if m.Logging.Level ≠ "" then m.Logging.Level else c.Logging.Level := by
    simp [Config.merge, apply_ite Config.Logging, apply_ite LogConfig.Level]
  have hQuiet : (c.merge m).Logging.Quiet =
      (c.Logging.Quiet || m.Logging.Quiet) := by
    cases hq : m.Logging.Quiet <;>
      simp [Config.merge, apply_ite Config.Logging,
        apply_ite LogConfig.Quiet, hq]
  have hJSON : (c.merge m).Logging.JSON =
      (c.Logging.JSON || m.Logging.JSON) := by
    cases hj : m.Logging.JSON <;>
      simp [Config.merge, apply_ite Config.Logging,
        apply_ite LogConfig.JSON, hj]
  have hFacts : (c.merge m).Facts = c.Facts ++ m.Facts := by
    cases hF : m.Facts <;>
      simp [Config.merge, apply_ite Config.Facts, hF]
  have hActions : (c.merge m).Actions = c.Actions ++ m.Actions := by
    cases hA : m.Actions <;>
      simp [Config.merge, apply_ite Config.Actions, hA]
  have hHash : (c.merge m).Hash = c.Hash := by
    simp [Config.merge, apply_ite Config.Hash]
  have heta : c.merge m =
      { Daemon := (c.merge m).Daemon, Logging := (c.merge m).Logging,
        Facts := (c.merge m).Facts, Actions := (c.merge m).Actions,
        Hash := (c.merge m).Hash } := rfl
  have hetaD : (c.merge m).Daemon =
      { Interval := (c.merge m).Daemon.Interval } := rfl
  have hetaL : (c.merge m).Logging =
      { File := (c.merge m).Logging.File,
        Level := (c.merge m).Logging.Level,
        Quiet := (c.merge m).Logging.Quiet,
        JSON := (c.merge m).Logging.JSON } := rfl
  rw [heta, hetaD, hetaL, hInt, hFile, hLevel, hQuiet, hJSON, hFacts,
    hActions, hHash]

/-- Configuration whose single fact runs the command `ACA`. -/
def cfgACA : Config :=
  { Daemon := { Interval := "" },
    Logging := { File := "", Level := "", Quiet := false, JSON := false },
    Facts := [{ Name := "A", Command := "ACA", Shell := "",
                Result := zeroCommand }],
    Actions := [], Hash := 0 }

/-- Configuration identical to `cfgACA` except the fact's command is
`BAB`.  The byte triples `ACA` and `BAB` have equal sums and equal
position-weighted sums, so Adler-32 cannot tell the serialized
configurations apart. -/
def cfgBAB : Config :=
  { Daemon := { Interval := "" },
    Logging := { File := "", Level := "", Quiet := false, JSON := false },
    Facts := [{ Name := "A", Command := "BAB", Shell := "",
                Result := zeroCommand }],
    Actions := [], Hash := 0 }

set_option maxRecDepth 100000 in
/-- Claim C6 — counterexample.  Two configurations that differ in a
substantive field (one fact's command string, `ACA` vs `BAB`) whose
32-bit checksums are equal: an Adler-32 collision, so the checksum does
not change whenever a substantive field changes. -/
theorem C6_counterexample :
    cfgACA.Facts ≠ cfgBAB.Facts ∧
    Config.calculateHash cfgACA = Config.calculateHash cfgBAB := by
  decide

/-- Claim C6 (amended): the checksum is deterministic and a function of
the substantive fields only (recomputation on an unchanged configuration
yields the same value regardless of the stored `Hash`); however, changing
a substantive field does not always change the 32-bit checksum —
distinct configurations can collide. -/
theorem C6_amended_hash_function_of_fields (c1 c2 : Config)
    (hD : c1.Daemon = c2.Daemon) (hL : c1.Logging = c2.Logging)
    (hF : c1.Facts = c2.Facts) (hA : c1.Actions = c2.Actions) :
    Config.calculateHash c1 = Config.calculateHash c2 := by
  unfold Config.calculateHash
  have h : ({ c1 with Hash := 0 } : Config) = { c2 with Hash := 0 } := by
    cases c1
    cases c2
    simp_all
  rw [h]

/-- Claim C6 — witness: the checksum ignores the stored `Hash` value. -/
theorem C6_witness :
    Config.calculateHash cfgACA =
      Config.calculateHash { cfgACA with Hash := 123 } :=
  C6_amended_hash_function_of_fields cfgACA { cfgACA with Hash := 123 }
    rfl rfl rfl rfl

/-- Claim C8 — counterexample.  When `os.Getwd` fails, `system.NewCommand`
panics (`panic(err.Error())`, asserted by its own test
`TestNewCommandGetCwdError`), and that panic escapes `gatherFacts`: fact
gathering does not complete for this non-empty fact list. -/
theorem C8_counterexample :
    gatherFactsE (Except.error "getwd: permission denied") execW [factOK] =
      Except.error "getwd: permission denied" := rfl

theorem gatherFactsE_go_ok (pwd : String) (exec : ExecOracle)
    (l : List Fact) (m : FactsMap) :
    gatherFactsE.go (Except.ok pwd) exec l m =
      Except.ok (l.foldl
        (fun acc fact => mapInsert acc fact.Name (runFact exec pwd fact))
        m) := by
  induction l generalizing m with
  | nil => rfl
  | cons fact rest ih =>
    rw [List.foldl_cons]
    show gatherFactsE.go (Except.ok pwd) exec rest _ = _
    rw [ih]
    simp [runFact, newCommandE]

/-- Claim C8 (amended): whenever the working-directory lookup succeeds,
fact gathering completes for every fact list and every execution outcome
— spawn failures, timeouts, and non-zero exits are recorded as data on
the facts' results and never escape the gatherer — but when `os.Getwd`
fails, the `NewCommand` panic does escape. -/
theorem C8_amended_no_panic_when_getwd_ok (pwd : String)
    (exec : ExecOracle) (facts : List Fact) :
    gatherFactsE (Except.ok pwd) exec facts =
      Except.ok (gatherFacts exec pwd facts) := by
  unfold gatherFactsE gatherFacts
  exact gatherFactsE_go_ok pwd exec facts []

end YamlRunner
